import Mathlib

/-!
Shallow embedding of the product/order export and CRUD subsystem of the
`mysite` Django project (apps `shopapp` and `myauth`), translated from
`src/mysite/shopapp/views.py` and `src/mysite/myauth/views.py`.

The model files (`models.py`) and the settings module are not part of the
provided sources; the entity records below are modelled from the data-model
section of the specification.  The web framework collaborators (ORM row
update, JSON encoding, the authorization mixins and decorators) are
modelled from the conventions the specification states for them.
-/

/-- Modelled from the spec: `Product.price` is a decimal field.  A decimal
is represented exactly as an unscaled integer mantissa together with a
decimal scale (number of fractional digits), mirroring a fixed-point
decimal type. -/
structure Decimal where
  mantissa : Int
  scale : Nat
  deriving Repr, DecidableEq

/-- String form of a decimal, as Python renders `Decimal` values: the
integer digits, a point, then `scale` fractional digits (zero-padded). -/
def Decimal.toStr (d : Decimal) : String :=
  let sign := if d.mantissa < 0 then "-" else ""
  let digits := toString d.mantissa.natAbs
  if d.scale = 0 then sign ++ digits
  else
    let padded :=
      if digits.length ≤ d.scale then
        String.mk (List.replicate (d.scale + 1 - digits.length) '0') ++ digits
      else digits
    sign ++ padded.dropRight d.scale ++ "." ++ padded.takeRight d.scale

/-- JSON values, the codomain of the export serializers. -/
inductive Json where
  | num : Int → Json
  | str : String → Json
  | bool : Bool → Json
  | null : Json
  | arr : List Json → Json
  | obj : List (String × Json) → Json
  deriving Repr

/-- Modelled from the spec: a `Product` row — identifier (primary key),
name, price (decimal), description, discount, archived flag (soft-delete
marker, default false), optional preview image reference. -/
structure Product where
  pk : Nat
  name : String
  price : Decimal
  description : String
  discount : Int
  archived : Bool
  preview : Option String
  deriving Repr, DecidableEq

/-- Modelled from the spec: an `Order` row — identifier, owning user
reference (`user_id`), promocode, delivery address, creation timestamp
(abstracted to a natural number), and the many-to-many product set kept as
a join list of product primary keys, per the design note on modelling the
association as an explicit join table. -/
structure Order where
  pk : Nat
  user_id : Nat
  promocode : String
  delivery_address : String
  created_at : Nat
  products : List Nat
  deriving Repr, DecidableEq

/-- The entity store: the persisted `Product` and `Order` tables. -/
structure Store where
  products : List Product
  orders : List Order
  deriving Repr, DecidableEq

/-- The requesting user as the access-control gate sees it: authentication
status, the two elevated flags, and the set of fine-grained permissions. -/
structure User where
  authenticated : Bool
  is_staff : Bool
  is_superuser : Bool
  perms : List String
  deriving Repr, DecidableEq

/-- A cookie attached to a response by `set_cookie`. -/
structure Cookie where
  name : String
  value : String
  max_age : Nat
  deriving Repr, DecidableEq

/-- HTTP responses produced by the embedded views. -/
inductive Response where
  | ok : String → List Cookie → Response
  | page : String → Response
  | json : Json → Response
  | redirect : String → Response
  | forbidden : Response
  | notFound : Response
  deriving Repr

/-- HTTP status code of a response. -/
def Response.status : Response → Nat
  | .ok _ _ => 200
  | .page _ => 200
  | .json _ => 200
  | .redirect _ => 302
  | .forbidden => 403
  | .notFound => 404

/-- Cookies set on a response. -/
def Response.cookies : Response → List Cookie
  | .ok _ cs => cs
  | _ => []

/-- Association-list lookup: value of the first entry with the given key. -/
def assocLookup {κ ν : Type} [DecidableEq κ] : List (κ × ν) → κ → Option ν
  | [], _ => none
  | (k', v) :: rest, k => if k' = k then some v else assocLookup rest k

/-- Association-list update with Python-dict semantics: overwrite the entry
with the given key in place, or append a fresh entry at the end. -/
def assocSet {κ ν : Type} [DecidableEq κ] : List (κ × ν) → κ → ν → List (κ × ν)
  | [], k, v => [(k, v)]
  | (k', v') :: rest, k, v =>
    if k' = k then (k, v) :: rest else (k', v') :: assocSet rest k v

/-- Insert into a list sorted by a natural-number key (stable). -/
def insertByKey {α : Type} (key : α → Nat) (a : α) : List α → List α
  | [] => [a]
  | b :: bs => if key a ≤ key b then a :: b :: bs else b :: insertByKey key a bs

/-- Sort a list by a natural-number key; models the `order_by` of the ORM
over the primary-key column (stable insertion sort). -/
def sortByKey {α : Type} (key : α → Nat) : List α → List α
  | [] => []
  | a :: as => insertByKey key a (sortByKey key as)

theorem perm_insertByKey {α : Type} (key : α → Nat) (a : α) (l : List α) :
    (insertByKey key a l).Perm (a :: l) := by
  induction l with
  | nil => exact List.Perm.refl _
  | cons b bs ih =>
    by_cases h : key a ≤ key b
    · simp [insertByKey, h]
    · simp only [insertByKey, h, if_neg, ite_false]
      exact (ih.cons b).trans (List.Perm.swap a b bs)

theorem perm_sortByKey {α : Type} (key : α → Nat) (l : List α) :
    (sortByKey key l).Perm l := by
  induction l with
  | nil => exact List.Perm.refl _
  | cons a as ih =>
    exact (perm_insertByKey key a (sortByKey key as)).trans (ih.cons a)

theorem sorted_insertByKey {α : Type} (key : α → Nat) (a : α) (l : List α)
    (h : l.Pairwise (fun x y => key x ≤ key y)) :
    (insertByKey key a l).Pairwise (fun x y => key x ≤ key y) := by
  induction l with
  | nil => simp [insertByKey]
  | cons b bs ih =>
    rcases List.pairwise_cons.mp h with ⟨hb, hbs⟩
    by_cases hab : key a ≤ key b
    · simp only [insertByKey, hab, ite_true]
      refine List.pairwise_cons.mpr ⟨?_, h⟩
      intro x hx
      rcases List.mem_cons.mp hx with rfl | hx
      · exact hab
      · exact le_trans hab (hb x hx)
    · simp only [insertByKey, hab, ite_false]
      refine List.pairwise_cons.mpr ⟨?_, ih hbs⟩
      intro x hx
      rcases List.mem_cons.mp ((perm_insertByKey key a bs).mem_iff.mp hx) with rfl | hx
      · exact le_of_not_le hab
      · exact hb x hx

theorem sorted_sortByKey {α : Type} (key : α → Nat) (l : List α) :
    (sortByKey key l).Pairwise (fun x y => key x ≤ key y) := by
  induction l with
  | nil => simp [sortByKey]
  | cons a as ih => exact sorted_insertByKey key a (sortByKey key as) ih

/-- `Product.objects.filter(...)`-style row lookup by primary key: the
first row whose `pk` column matches (models `get_object` / `pk` lookup). -/
def findByPk : List Product → Nat → Option Product
  | [], _ => none
  | p :: ps, pk => if p.pk = pk then some p else findByPk ps pk

/-- ORM `save()` of an existing row: replace the row(s) whose primary key
matches the saved object by the saved object, leaving all others alone. -/
def saveProduct (store : Store) (p : Product) : Store :=
  { store with products := store.products.map fun q => if q.pk = p.pk then p else q }

/-- Modelled from the spec: the configured single quote character, used by
Python `repr` of a string. -/
def squote : String := String.singleton (Char.ofNat 39)

/-- Backslash-escape backslashes and single quotes in a character list. -/
def escapeChars : List Char → List Char
  | [] => []
  | c :: cs =>
    if c = '\\' ∨ c = Char.ofNat 39 then '\\' :: c :: escapeChars cs
    else c :: escapeChars cs

/-- Modelled from the spec: Python `repr` of a string value, as interpolated
by the f-string of `get_cookie_view` — the value wrapped in single quotes,
with backslashes and single quotes backslash-escaped. -/
def pyRepr (s : String) : String :=
  squote ++ String.mk (escapeChars s.data) ++ squote

/-- Modelled from the spec: the framework redirect to the login endpoint
for an unauthenticated request — a 302 redirect whose target is the
configured login path followed by the `next` query parameter. -/
def redirect_to_login (loginUrl next : String) : Response :=
  Response.redirect (loginUrl ++ "?next=" ++ next)

/-- Modelled from the spec: the access-control gate outcome when a
permission-style check fails (the `handle_no_permission` convention):
when the check was declared with `raise_exception`, or the requester is
already authenticated, an explicit forbidden response is raised; only an
unauthenticated requester is redirected to the login endpoint. -/
def handle_no_permission (raiseException : Bool) (u : User) (loginUrl next : String) :
    Response :=
  if raiseException || u.authenticated then Response.forbidden
  else redirect_to_login loginUrl next

/-- Whether the user holds a fine-grained permission. -/
def hasPerm (u : User) (perm : String) : Bool := u.perms.contains perm

/-- The `success_url` of `ProductCreateView` and `ProductDeleteView`:
`reverse_lazy("shopapp:products_list")`. -/
def products_list_url : String := "shopapp:products_list"

/-- `ProductsListView.queryset = Product.objects.filter(archived=False)`. -/
def ProductsListView.queryset (store : Store) : List Product :=
  store.products.filter fun p => !p.archived

/-- `ProductsListView` renders with `context_object_name = "products"`:
the template context binds the key `products` to the queryset. -/
def ProductsListView.context (store : Store) : List (String × List Product) :=
  [("products", ProductsListView.queryset store)]

/-- `ProductDeleteView`: resolve the object by primary key (404 when
missing), then `form_valid` marks it archived, saves it, and redirects to
the product list (`success_url`).  Returns the updated store with the
response. -/
def ProductDeleteView.post (store : Store) (pk : Nat) : Store × Response :=
  match findByPk store.products pk with
  | none => (store, Response.notFound)
  | some p =>
    let archivedProduct := { p with archived := true }
    (saveProduct store archivedProduct, Response.redirect products_list_url)

/-- `OrdersListView` is `LoginRequiredMixin` + `ListView` over the order
queryset: an authenticated requester gets the rendered order list page,
an unauthenticated one is redirected to the login endpoint. -/
def OrdersListView.dispatch (u : User) (loginUrl next : String) (store : Store) :
    Response :=
  if u.authenticated then Response.page "shopapp/order_list.html"
  else redirect_to_login loginUrl next

/-- Row lookup by primary key in the order table. -/
def findOrderByPk : List Order → Nat → Option Order
  | [], _ => none
  | o :: os, pk => if o.pk = pk then some o else findOrderByPk os pk

/-- `OrderDetailView` is `PermissionRequiredMixin` (permission
`shopapp.view_order`, `raise_exception` not set, hence false) +
`DetailView`: with the permission, render the order detail page (404 when
the key is missing); without it, the gate decides via
`handle_no_permission`. -/
def OrderDetailView.dispatch (u : User) (loginUrl next : String) (store : Store)
    (pk : Nat) : Response :=
  if hasPerm u "shopapp.view_order" then
    match findOrderByPk store.orders pk with
    | some _ => Response.page "shopapp/order_detail.html"
    | none => Response.notFound
  else handle_no_permission false u loginUrl next

/-- Modelled from the spec: DjangoJSONEncoder (used by `JsonResponse`)
serializes a decimal as its string form — the repository's own export test
asserts `str(product.price)` for the emitted value. -/
def encodeDecimal (d : Decimal) : Json := Json.str d.toStr

/-- One row of the product export:
`{'pk': ..., 'name': ..., 'price': product.price, 'archived': ...}` as it
leaves the JSON encoder. -/
def productEntry (p : Product) : Json :=
  Json.obj [("pk", Json.num p.pk), ("name", Json.str p.name),
            ("price", encodeDecimal p.price), ("archived", Json.bool p.archived)]

/-- `ProductsDataExportView.get`: every product ordered by `pk`, serialized
to `{'products': [...]}`.  No access gate is declared on this view. -/
def ProductsDataExportView.get (store : Store) : Json :=
  Json.obj [("products", Json.arr ((sortByKey Product.pk store.products).map productEntry))]

/-- Membership test `product in order.products.all()`: model instances
compare equal by primary key, and the association is the join list of
product keys. -/
def orderHasProduct (o : Order) (p : Product) : Bool := o.products.contains p.pk

/-- The inner loop of `OrdersDataExportView.get`: walk the full product
table (ordered by `pk`) and keep `{'name': ..., 'price': str(...)}` for
each product associated with the order. -/
def orderProductEntries (o : Order) (products : List Product) : List Json :=
  products.filterMap fun p =>
    if orderHasProduct o p then
      some (Json.obj [("name", Json.str p.name), ("price", Json.str p.price.toStr)])
    else none

/-- The `order_product_map` dictionary of `OrdersDataExportView.get`:
for each order, assign its product-entry list under the key `order.pk`
(later assignments overwrite earlier ones, as in a Python dict). -/
def buildOrderProductMap (orders : List Order) (products : List Product) :
    List (Nat × List Json) :=
  orders.foldl (fun m o => assocSet m o.pk (orderProductEntries o products)) []

/-- One row of the order export, reading the nested product list out of
`order_product_map` exactly as the source comprehension does. -/
def orderEntryFromMap (m : List (Nat × List Json)) (o : Order) : Json :=
  Json.obj [("pk", Json.num o.pk),
            ("delivery_address", Json.str o.delivery_address),
            ("created_at", Json.str (toString o.created_at)),
            ("user_id", Json.num o.user_id),
            ("promocode", Json.str o.promocode),
            ("products", Json.arr ((assocLookup m o.pk).getD []))]

/-- `OrdersDataExportView.get`: orders and products each ordered by `pk`,
the per-order nested product lists built into `order_product_map`, then
each order serialized to `{'orders': [...]}`.  `str(order.created_at)` is
the stringified timestamp and `str(order.promocode)` is the promocode
itself (Python `str` on a string is the identity). -/
def OrdersDataExportView.get (store : Store) : Json :=
  let orders := sortByKey Order.pk store.orders
  let products := sortByKey Product.pk store.products
  let m := buildOrderProductMap orders products
  Json.obj [("orders", Json.arr (orders.map (orderEntryFromMap m)))]

/-- `OrdersDataExportView.test_func`: the view is available only to
requesters with the `is_staff` flag. -/
def OrdersDataExportView.test_func (u : User) : Bool := u.is_staff

/-- `OrdersDataExportView` is `UserPassesTestMixin` + the `get` above:
when `test_func` fails the gate decides via `handle_no_permission`
(no `raise_exception` declared). -/
def OrdersDataExportView.dispatch (u : User) (loginUrl next : String)
    (store : Store) : Response :=
  if OrdersDataExportView.test_func u then
    Response.json (OrdersDataExportView.get store)
  else handle_no_permission false u loginUrl next

/-- `set_cookie_view`, guarded by `user_passes_test(lambda u: u.is_superuser)`:
a superuser gets a "Cookie set" response carrying the cookie
`fizz=buzz` with `max_age=3600`; the decorator redirects anyone else to the
login endpoint (and no cookie is set). -/
def set_cookie_view (u : User) (loginUrl next : String) : Response :=
  if u.is_superuser then Response.ok "Cookie set" [⟨"fizz", "buzz", 3600⟩]
  else redirect_to_login loginUrl next

/-- `get_cookie_view`: no decorator, hence no access gate.  Reads the
`fizz` cookie with default `"default value"` and echoes
`f"Cookie value: {value!r}"`.  It takes no store or session and writes
nothing: the only output is the response, which itself sets no cookie. -/
def get_cookie_view (u : User) (cookies : List (String × String)) : Response :=
  let value := (assocLookup cookies "fizz").getD "default value"
  Response.ok ("Cookie value: " ++ pyRepr value) []

/-- `set_session_view`, guarded by
`permission_required("myauth.view_profile", raise_exception=True)`:
with the permission it writes `session["foobar"] = "spameggs"` and answers
"Session set!"; without it the decorator raises the explicit forbidden
response and the session is untouched. -/
def set_session_view (u : User) (session : List (String × String)) :
    Response × List (String × String) :=
  if hasPerm u "myauth.view_profile" then
    (Response.ok "Session set!" [], assocSet session "foobar" "spameggs")
  else (Response.forbidden, session)

/-! ### Helper lemmas -/

theorem assocLookup_assocSet_self {κ ν : Type} [DecidableEq κ]
    (m : List (κ × ν)) (k : κ) (v : ν) :
    assocLookup (assocSet m k v) k = some v := by
  induction m with
  | nil => simp [assocSet, assocLookup]
  | cons e rest ih =>
    obtain ⟨k', v'⟩ := e
    by_cases h : k' = k
    · simp [assocSet, assocLookup, h]
    · simp [assocSet, assocLookup, h, ih]

theorem assocLookup_assocSet_ne {κ ν : Type} [DecidableEq κ]
    (m : List (κ × ν)) (k k' : κ) (v : ν) (h : k' ≠ k) :
    assocLookup (assocSet m k v) k' = assocLookup m k' := by
  induction m with
  | nil => simp [assocSet, assocLookup, Ne.symm h]
  | cons e rest ih =>
    obtain ⟨k'', v''⟩ := e
    by_cases h2 : k'' = k
    · subst h2
      simp [assocSet, assocLookup, Ne.symm h, h]
    · by_cases h3 : k'' = k'
      · subst h3
        simp [assocSet, assocLookup, h2]
      · simp [assocSet, assocLookup, h2, h3, ih]

theorem lookup_buildMap_not_mem (orders : List Order) (products : List Product)
    (m : List (Nat × List Json)) (k : Nat) (hk : k ∉ orders.map Order.pk) :
    assocLookup (orders.foldl (fun m o => assocSet m o.pk (orderProductEntries o products)) m) k
      = assocLookup m k := by
  induction orders generalizing m with
  | nil => rfl
  | cons o rest ih =>
    simp only [List.map_cons, List.mem_cons, not_or] at hk
    simp only [List.foldl_cons]
    rw [ih _ hk.2, assocLookup_assocSet_ne _ _ _ _ hk.1]

theorem lookup_buildMap_mem (orders : List Order) (products : List Product)
    (m : List (Nat × List Json)) (o : Order) (ho : o ∈ orders)
    (hnd : (orders.map Order.pk).Nodup) :
    assocLookup (orders.foldl (fun m o => assocSet m o.pk (orderProductEntries o products)) m) o.pk
      = some (orderProductEntries o products) := by
  induction orders generalizing m with
  | nil => cases ho
  | cons o' rest ih =>
    simp only [List.map_cons, List.nodup_cons] at hnd
    rcases List.mem_cons.mp ho with rfl | hmem
    · simp only [List.foldl_cons]
      rw [lookup_buildMap_not_mem rest products _ o.pk hnd.1]
      exact assocLookup_assocSet_self m o.pk _
    · simp only [List.foldl_cons]
      exact ih _ hmem hnd.2

theorem findByPk_pk (l : List Product) (pk : Nat) (p : Product)
    (h : findByPk l pk = some p) : p.pk = pk := by
  induction l with
  | nil => cases h
  | cons q qs ih =>
    by_cases hq : q.pk = pk
    · simp only [findByPk, hq, if_pos, Option.some.injEq] at h
      · exact h ▸ hq
    · simp only [findByPk, hq, if_neg, ite_false] at h
      exact ih h

theorem findByPk_mem (l : List Product) (pk : Nat) (p : Product)
    (h : findByPk l pk = some p) : p ∈ l := by
  induction l with
  | nil => cases h
  | cons q qs ih =>
    by_cases hq : q.pk = pk
    · simp only [findByPk, hq, if_pos, Option.some.injEq] at h
      · exact h ▸ List.mem_cons_self q qs
    · simp only [findByPk, hq, if_neg, ite_false] at h
      exact List.mem_cons_of_mem q (ih h)

theorem findByPk_save (l : List Product) (pk : Nat) (p p' : Product)
    (h : findByPk l pk = some p) (hpk : p'.pk = p.pk) :
    findByPk (l.map fun q => if q.pk = p'.pk then p' else q) pk = some p' := by
  have hp : p.pk = pk := findByPk_pk l pk p h
  induction l with
  | nil => cases h
  | cons q qs ih =>
    by_cases hq : q.pk = pk
    · have hq' : q.pk = p'.pk := by rw [hpk, hp, hq]
      simp only [List.map_cons, hq', if_pos, ite_true]
      have : p'.pk = pk := by rw [hpk, hp]
      simp [findByPk, this]
    · simp only [findByPk, hq, if_neg, ite_false] at h
      have hq' : ¬ q.pk = p'.pk := by rw [hpk, hp]; exact hq
      simp only [List.map_cons, hq', if_neg, ite_false]
      simp only [findByPk, hq, if_neg, ite_false]
      exact ih h

theorem map_save_id (l : List Product) (p : Product)
    (hnone : ∀ q ∈ l, q.pk ≠ p.pk) :
    (l.map fun q => if q.pk = p.pk then p else q) = l := by
  induction l with
  | nil => rfl
  | cons q qs ih =>
    have hq := hnone q (List.mem_cons_self q qs)
    simp only [List.map_cons, hq, if_neg, ite_false, List.cons.injEq]
    exact ⟨trivial, ih fun r hr => hnone r (List.mem_cons_of_mem q hr)⟩

theorem map_save_eq_self (l : List Product) (p : Product) (hmem : p ∈ l)
    (hnd : (l.map Product.pk).Nodup) :
    (l.map fun q => if q.pk = p.pk then p else q) = l := by
  induction l with
  | nil => cases hmem
  | cons q qs ih =>
    simp only [List.map_cons, List.nodup_cons] at hnd
    rcases List.mem_cons.mp hmem with rfl | hmem
    · simp only [List.map_cons, if_pos, ite_true, List.cons.injEq]
      refine ⟨trivial, map_save_id qs p ?_⟩
      intro r hr hrp
      exact hnd.1 (hrp ▸ List.mem_map_of_mem Product.pk hr)
    · have hq : ¬ q.pk = p.pk := by
        intro hqp
        exact hnd.1 (hqp ▸ List.mem_map_of_mem Product.pk hmem)
      simp only [List.map_cons, hq, if_neg, ite_false, List.cons.injEq]
      exact ⟨trivial, ih hmem hnd.2⟩

theorem archive_of_archived (p : Product) (h : p.archived = true) :
    { p with archived := true } = p := by
  cases p
  simp only at h
  simp [h]

/-- The direct (dictionary-free) characterization of one order-export row:
the nested product list is computed straight from the given product table. -/
def orderEntry (o : Order) (products : List Product) : Json :=
  Json.obj [("pk", Json.num o.pk),
            ("delivery_address", Json.str o.delivery_address),
            ("created_at", Json.str (toString o.created_at)),
            ("user_id", Json.num o.user_id),
            ("promocode", Json.str o.promocode),
            ("products", Json.arr (orderProductEntries o products))]

/-! ### Concrete fixtures, used by counterexamples and witnesses -/

/-- A non-archived product with price 123.45, as in the creation test. -/
def sampleProduct : Product :=
  { pk := 1, name := "Table", price := { mantissa := 12345, scale := 2 },
    description := "A good table", discount := 10, archived := false,
    preview := none }

/-- An archived product with price 5.00. -/
def sampleProduct2 : Product :=
  { pk := 2, name := "Chair", price := { mantissa := 500, scale := 2 },
    description := "A chair", discount := 0, archived := true,
    preview := some "chair.png" }

/-- A store holding the single non-archived sample product. -/
def sampleStore : Store := { products := [sampleProduct], orders := [] }

/-- An order owning the second sample product. -/
def sampleOrder : Order :=
  { pk := 1, user_id := 1, promocode := "SALE", delivery_address := "Street 1",
    created_at := 100, products := [2] }

/-- A store with both sample products and the sample order. -/
def sampleStore2 : Store :=
  { products := [sampleProduct, sampleProduct2], orders := [sampleOrder] }

/-- A store holding only the archived sample product. -/
def archStore : Store := { products := [sampleProduct2], orders := [] }

/-- An authenticated staff member without fine-grained permissions. -/
def staffUser : User :=
  { authenticated := true, is_staff := true, is_superuser := false, perms := [] }

/-- An authenticated user with neither flags nor permissions. -/
def plainUser : User :=
  { authenticated := true, is_staff := false, is_superuser := false, perms := [] }

/-- An authenticated superuser. -/
def superUser : User :=
  { authenticated := true, is_staff := false, is_superuser := true, perms := [] }

/-- An unauthenticated requester. -/
def anonUser : User :=
  { authenticated := false, is_staff := false, is_superuser := false, perms := [] }

/-! ### Claims -/

/-- C1, counterexample: the claim says the product export emits `price` as a
native numeric JSON value.  On the store holding one product of price 123.45
the export emits the JSON string "123.45" in the `price` slot (the decimal
is stringified on encoding, exactly as the repository's own export test
expects), and a JSON string is never a JSON number. -/
theorem C1_price_is_string_counterexample :
    ProductsDataExportView.get sampleStore =
      Json.obj [("products", Json.arr [Json.obj
        [("pk", Json.num 1), ("name", Json.str "Table"),
         ("price", Json.str "123.45"), ("archived", Json.bool false)]])] ∧
    ∀ n : Int, Json.str "123.45" ≠ Json.num n := by
  refine ⟨rfl, ?_⟩
  intro n h
  exact Json.noConfusion h

/-- C1 (amended): for every store the product export is a JSON object
`{"products": rows}` with one entry per product (archived or not) in
ascending primary-key order, each entry exactly
`{pk, name, price, archived}` — where `price` is emitted as a JSON string
(the decimal's string form), not as a native number. -/
theorem C1_products_export (store : Store) :
    ∃ rows : List Product,
      ProductsDataExportView.get store =
        Json.obj [("products", Json.arr (rows.map productEntry))] ∧
      rows.Perm store.products ∧
      (rows.map Product.pk).Pairwise (· ≤ ·) ∧
      ∀ p : Product, productEntry p =
        Json.obj [("pk", Json.num p.pk), ("name", Json.str p.name),
                  ("price", Json.str p.price.toStr),
                  ("archived", Json.bool p.archived)] := by
  refine ⟨sortByKey Product.pk store.products, rfl, perm_sortByKey _ _, ?_, fun p => rfl⟩
  exact (sorted_sortByKey Product.pk store.products).map Product.pk fun a b h => h

/-- C4: the product list view's context binds the key `products` to exactly
the non-archived products: a product is in that list precisely when it is in
the store with `archived = false`. -/
theorem C4_products_list_active_only (store : Store) (p : Product) :
    ∃ l, assocLookup (ProductsListView.context store) "products" = some l ∧
      (p ∈ l ↔ p ∈ store.products ∧ p.archived = false) := by
  refine ⟨ProductsListView.queryset store, rfl, ?_⟩
  simp [ProductsListView.queryset, List.mem_filter]

/-- C5: the delete action does not remove the row — the product stays
retrievable by its primary key with `archived = true` and every other field
unchanged, the order table is untouched, and the response is the redirect to
the product list. -/
theorem C5_delete_archives_in_place (store : Store) (pk : Nat) (p : Product)
    (h : findByPk store.products pk = some p) :
    findByPk (ProductDeleteView.post store pk).1.products pk =
      some { p with archived := true } ∧
    (ProductDeleteView.post store pk).1.orders = store.orders ∧
    (ProductDeleteView.post store pk).2 = Response.redirect products_list_url ∧
    Product.name { p with archived := true } = p.name ∧
    Product.price { p with archived := true } = p.price ∧
    Product.description { p with archived := true } = p.description ∧
    Product.discount { p with archived := true } = p.discount ∧
    Product.preview { p with archived := true } = p.preview ∧
    Product.archived { p with archived := true } = true := by
  simp only [ProductDeleteView.post, h]
  refine ⟨?_, ?_⟩
  · simp only [saveProduct]
    exact findByPk_save store.products pk p { p with archived := true } h rfl
  · simp [saveProduct]

/-- C5, witness: deleting the sample product archives it in place and
redirects to the product list. -/
theorem C5_delete_archives_in_place_witness :
    findByPk sampleStore.products 1 = some sampleProduct ∧
    findByPk (ProductDeleteView.post sampleStore 1).1.products 1 =
      some { sampleProduct with archived := true } ∧
    (ProductDeleteView.post sampleStore 1).2 = Response.redirect products_list_url :=
  ⟨rfl, (C5_delete_archives_in_place sampleStore 1 sampleProduct rfl).1,
    (C5_delete_archives_in_place sampleStore 1 sampleProduct rfl).2.2.1⟩

/-- C9: the delete action is idempotent — on a store with distinct primary
keys, deleting an already-archived product leaves the store exactly as it
was, and the response is the same redirect to the product list. -/
theorem C9_archive_idempotent (store : Store) (pk : Nat) (p : Product)
    (h : findByPk store.products pk = some p) (ha : p.archived = true)
    (hnd : (store.products.map Product.pk).Nodup) :
    ProductDeleteView.post store pk = (store, Response.redirect products_list_url) := by
  simp only [ProductDeleteView.post, h]
  rw [archive_of_archived p ha]
  simp only [saveProduct]
  rw [map_save_eq_self store.products p (findByPk_mem store.products pk p h) hnd]

/-- C9, witness: deleting the already-archived sample product leaves the
store unchanged and redirects to the product list. -/
theorem C9_archive_idempotent_witness :
    findByPk archStore.products 2 = some sampleProduct2 ∧
    sampleProduct2.archived = true ∧
    (archStore.products.map Product.pk).Nodup ∧
    ProductDeleteView.post archStore 2 = (archStore, Response.redirect products_list_url) :=
  ⟨rfl, rfl, by simp [archStore, sampleProduct2],
    C9_archive_idempotent archStore 2 sampleProduct2 rfl rfl
      (by simp [archStore, sampleProduct2])⟩

/-- C2: an authenticated requester lacking the required permission gets an
explicit forbidden response, never a redirect — for the order detail view
(permission `shopapp.view_order`) and for the session-set view (permission
`myauth.view_profile`, declared with `raise_exception`). -/
theorem C2_insufficient_permission_forbidden (u : User) (loginUrl next : String)
    (store : Store) (pk : Nat) (session : List (String × String))
    (hauth : u.authenticated = true) :
    (hasPerm u "shopapp.view_order" = false →
      OrderDetailView.dispatch u loginUrl next store pk = Response.forbidden ∧
      ∀ url, OrderDetailView.dispatch u loginUrl next store pk ≠ Response.redirect url) ∧
    (hasPerm u "myauth.view_profile" = false →
      (set_session_view u session).1 = Response.forbidden ∧
      ∀ url, (set_session_view u session).1 ≠ Response.redirect url) := by
  constructor
  · intro hperm
    have h1 : OrderDetailView.dispatch u loginUrl next store pk = Response.forbidden := by
      simp [OrderDetailView.dispatch, hperm, handle_no_permission, hauth]
    exact ⟨h1, fun url h2 => Response.noConfusion (h1 ▸ h2)⟩
  · intro hperm
    have h1 : (set_session_view u session).1 = Response.forbidden := by
      simp [set_session_view, hperm]
    exact ⟨h1, fun url h2 => Response.noConfusion (h1 ▸ h2)⟩

/-- C2, witness: the authenticated permissionless user is answered with
forbidden by both permission-gated views. -/
theorem C2_insufficient_permission_forbidden_witness :
    plainUser.authenticated = true ∧
    hasPerm plainUser "shopapp.view_order" = false ∧
    OrderDetailView.dispatch plainUser "/accounts/login/" "/shop/orders/1/" sampleStore2 1 =
      Response.forbidden ∧
    hasPerm plainUser "myauth.view_profile" = false ∧
    (set_session_view plainUser []).1 = Response.forbidden :=
  ⟨rfl, rfl,
    ((C2_insufficient_permission_forbidden plainUser "/accounts/login/" "/shop/orders/1/"
      sampleStore2 1 [] rfl).1 rfl).1,
    rfl,
    ((C2_insufficient_permission_forbidden plainUser "/accounts/login/" "/shop/orders/1/"
      sampleStore2 1 [] rfl).2 rfl).1⟩

/-- C3: for a staff requester, the order export lists the orders in
ascending primary-key order, each row exactly
`{pk, delivery_address, created_at stringified, user_id, promocode,
products}` where the nested list walks the full product table in ascending
primary-key order keeping exactly the order's associated products, each as
`{name, price-as-string}`.  The `order_product_map` dictionary built by the
view agrees with this direct characterization whenever the order table has
distinct primary keys. -/
theorem C3_orders_export (u : User) (loginUrl next : String) (store : Store)
    (hstaff : u.is_staff = true)
    (hnd : (store.orders.map Order.pk).Nodup) :
    ∃ rows : List Order,
      OrdersDataExportView.dispatch u loginUrl next store =
        Response.json (Json.obj [("orders",
          Json.arr (rows.map fun o => orderEntry o (sortByKey Product.pk store.products)))]) ∧
      rows.Perm store.orders ∧
      (rows.map Order.pk).Pairwise (· ≤ ·) ∧
      (sortByKey Product.pk store.products).Perm store.products ∧
      ((sortByKey Product.pk store.products).map Product.pk).Pairwise (· ≤ ·) ∧
      ∀ (o : Order) (ps : List Product), orderEntry o ps =
        Json.obj [("pk", Json.num o.pk),
                  ("delivery_address", Json.str o.delivery_address),
                  ("created_at", Json.str (toString o.created_at)),
                  ("user_id", Json.num o.user_id),
                  ("promocode", Json.str o.promocode),
                  ("products", Json.arr (ps.filterMap fun p =>
                    if o.products.contains p.pk then
                      some (Json.obj [("name", Json.str p.name),
                                      ("price", Json.str p.price.toStr)])
                    else none))] := by
  refine ⟨sortByKey Order.pk store.orders, ?_, perm_sortByKey _ _,
    (sorted_sortByKey Order.pk store.orders).map Order.pk (fun a b h => h),
    perm_sortByKey _ _,
    (sorted_sortByKey Product.pk store.products).map Product.pk (fun a b h => h),
    fun o ps => rfl⟩
  have hnd' : ((sortByKey Order.pk store.orders).map Order.pk).Nodup :=
    (((perm_sortByKey Order.pk store.orders).map Order.pk).nodup_iff).mpr hnd
  simp only [OrdersDataExportView.dispatch, OrdersDataExportView.test_func, hstaff,
    if_pos, ite_true, OrdersDataExportView.get]
  congr 1
  congr 1
  congr 1
  congr 1
  congr 1
  refine List.map_congr_left ?_
  intro o ho
  simp only [orderEntryFromMap, orderEntry, buildOrderProductMap]
  rw [lookup_buildMap_mem (sortByKey Order.pk store.orders)
    (sortByKey Product.pk store.products) [] o ho hnd']
  rfl

/-- C3, witness: exporting the two-product, one-order sample store as the
staff user yields exactly the serialized sample order. -/
theorem C3_orders_export_witness :
    staffUser.is_staff = true ∧
    (sampleStore2.orders.map Order.pk).Nodup ∧
    OrdersDataExportView.dispatch staffUser "/accounts/login/" "/shop/orders/export/" sampleStore2 =
      Response.json (Json.obj [("orders",
        Json.arr [orderEntry sampleOrder (sortByKey Product.pk sampleStore2.products)])]) := by
  refine ⟨rfl, by simp [sampleStore2, sampleOrder], ?_⟩
  obtain ⟨rows, h1, hperm, -, -, -, -⟩ :=
    C3_orders_export staffUser "/accounts/login/" "/shop/orders/export/" sampleStore2 rfl
      (by simp [sampleStore2, sampleOrder])
  have hrows : rows = [sampleOrder] := List.perm_singleton.mp hperm
  rw [hrows] at h1
  exact h1

/-- C6: a requester without the staff flag never receives order data from
the orders export endpoint: the response is not a JSON payload — it is the
explicit forbidden response when authenticated, the login redirect
otherwise. -/
theorem C6_orders_export_requires_staff (u : User) (loginUrl next : String)
    (store : Store) (h : u.is_staff = false) :
    (∀ j, OrdersDataExportView.dispatch u loginUrl next store ≠ Response.json j) ∧
    (OrdersDataExportView.dispatch u loginUrl next store = Response.forbidden ∨
     OrdersDataExportView.dispatch u loginUrl next store = redirect_to_login loginUrl next) := by
  have hd : OrdersDataExportView.dispatch u loginUrl next store =
      handle_no_permission false u loginUrl next := by
    simp [OrdersDataExportView.dispatch, OrdersDataExportView.test_func, h]
  rw [hd]
  by_cases ha : u.authenticated
  · constructor
    · intro j hj
      rw [show handle_no_permission false u loginUrl next = Response.forbidden by
        simp [handle_no_permission, ha]] at hj
      exact Response.noConfusion hj
    · left
      simp [handle_no_permission, ha]
  · constructor
    · intro j hj
      rw [show handle_no_permission false u loginUrl next = redirect_to_login loginUrl next by
        simp [handle_no_permission, ha]] at hj
      exact Response.noConfusion hj
    · right
      simp [handle_no_permission, ha]

/-- C6, witness: the authenticated non-staff user is answered with forbidden
by the orders export endpoint. -/
theorem C6_orders_export_requires_staff_witness :
    plainUser.is_staff = false ∧
    OrdersDataExportView.dispatch plainUser "/accounts/login/" "/shop/orders/export/" sampleStore2 =
      Response.forbidden := by
  refine ⟨rfl, ?_⟩
  rcases (C6_orders_export_requires_staff plainUser "/accounts/login/" "/shop/orders/export/"
    sampleStore2 rfl).2 with h | h
  · exact h
  · exact absurd h (fun hredir => Response.noConfusion hredir)

/-- C7: an unauthenticated request to the order list view is answered with a
302 redirect whose target starts with the configured login path, and no
page is rendered. -/
theorem C7_orders_list_unauthenticated_redirect (u : User) (loginUrl next : String)
    (store : Store) (h : u.authenticated = false) :
    (OrdersListView.dispatch u loginUrl next store).status = 302 ∧
    (∃ rest, OrdersListView.dispatch u loginUrl next store =
      Response.redirect (loginUrl ++ rest)) ∧
    (∀ t, OrdersListView.dispatch u loginUrl next store ≠ Response.page t) := by
  have hd : OrdersListView.dispatch u loginUrl next store =
      Response.redirect (loginUrl ++ "?next=" ++ next) := by
    simp [OrdersListView.dispatch, h, redirect_to_login]
  refine ⟨by rw [hd]; rfl, ⟨"?next=" ++ next, by rw [hd, String.append_assoc]⟩, ?_⟩
  intro t ht
  rw [hd] at ht
  exact Response.noConfusion ht

/-- C7, witness: the unauthenticated user is redirected by the order list
view with status 302 to a target starting with the login path. -/
theorem C7_orders_list_unauthenticated_redirect_witness :
    anonUser.authenticated = false ∧
    (OrdersListView.dispatch anonUser "/accounts/login/" "/shop/orders/" sampleStore2).status = 302 ∧
    OrdersListView.dispatch anonUser "/accounts/login/" "/shop/orders/" sampleStore2 =
      Response.redirect ("/accounts/login/" ++ ("?next=" ++ "/shop/orders/")) := by
  refine ⟨rfl,
    (C7_orders_list_unauthenticated_redirect anonUser "/accounts/login/" "/shop/orders/"
      sampleStore2 rfl).1, ?_⟩
  obtain ⟨-, ⟨rest, hr⟩, -⟩ :=
    C7_orders_list_unauthenticated_redirect anonUser "/accounts/login/" "/shop/orders/"
      sampleStore2 rfl
  exact rfl

/-- C8: a superuser request to the cookie-set endpoint is answered 200 with
the cookie `fizz=buzz` expiring after exactly 3600 seconds; a non-superuser
request receives no cookie at all. -/
theorem C8_set_cookie_superuser_only (u : User) (loginUrl next : String) :
    (u.is_superuser = true →
      set_cookie_view u loginUrl next =
        Response.ok "Cookie set" [{ name := "fizz", value := "buzz", max_age := 3600 }] ∧
      (set_cookie_view u loginUrl next).status = 200) ∧
    (u.is_superuser = false →
      (set_cookie_view u loginUrl next).cookies = []) := by
  constructor
  · intro hsu
    constructor
    · simp [set_cookie_view, hsu]
    · simp [set_cookie_view, hsu, Response.status]
  · intro hsu
    simp [set_cookie_view, hsu, redirect_to_login, Response.cookies]

/-- C8, witness: the superuser receives the one-hour `fizz=buzz` cookie and
the plain user receives no cookie. -/
theorem C8_set_cookie_superuser_only_witness :
    superUser.is_superuser = true ∧
    set_cookie_view superUser "/accounts/login/" "/cookie/set/" =
      Response.ok "Cookie set" [{ name := "fizz", value := "buzz", max_age := 3600 }] ∧
    plainUser.is_superuser = false ∧
    (set_cookie_view plainUser "/accounts/login/" "/cookie/set/").cookies = [] :=
  ⟨rfl, ((C8_set_cookie_superuser_only superUser "/accounts/login/" "/cookie/set/").1 rfl).1,
    rfl, (C8_set_cookie_superuser_only plainUser "/accounts/login/" "/cookie/set/").2 rfl⟩

/-- C10: the cookie-get endpoint has no access gate — every requester,
whatever the flags or permissions, gets a 200 response echoing the `fizz`
cookie value when present and the fixed default otherwise; the view reads
no store and writes no state, and its response sets no cookie. -/
theorem C10_get_cookie_ungated (u u' : User) (cookies : List (String × String)) :
    (get_cookie_view u cookies).status = 200 ∧
    get_cookie_view u cookies = get_cookie_view u' cookies ∧
    (∀ v, assocLookup cookies "fizz" = some v →
      get_cookie_view u cookies = Response.ok ("Cookie value: " ++ pyRepr v) []) ∧
    (assocLookup cookies "fizz" = none →
      get_cookie_view u cookies = Response.ok ("Cookie value: " ++ pyRepr "default value") []) ∧
    (get_cookie_view u cookies).cookies = [] := by
  refine ⟨rfl, rfl, ?_, ?_, rfl⟩
  · intro v hv
    simp [get_cookie_view, hv]
  · intro hv
    simp [get_cookie_view, hv]

/-- C10, witness: with the cookie present the stored value is echoed, and
with no cookies the fixed default is echoed. -/
theorem C10_get_cookie_ungated_witness :
    assocLookup [("fizz", "buzz")] "fizz" = some "buzz" ∧
    get_cookie_view anonUser [("fizz", "buzz")] =
      Response.ok ("Cookie value: " ++ pyRepr "buzz") [] ∧
    assocLookup ([] : List (String × String)) "fizz" = none ∧
    get_cookie_view superUser [] =
      Response.ok ("Cookie value: " ++ pyRepr "default value") [] :=
  ⟨rfl, (C10_get_cookie_ungated anonUser anonUser [("fizz", "buzz")]).2.2.1 "buzz" rfl,
    rfl, (C10_get_cookie_ungated superUser superUser []).2.2.2.1 rfl⟩
